import Mathlib

/-!
Verification of the holdings-dashboard aggregation pipeline
(source: src/streamliApp.py).

The pipeline is embedded shallowly:
* a pandas `DataFrame` row becomes a `HoldingRecord`; the table is a
  `List HoldingRecord` in source row order;
* monetary and growth columns are embedded as rationals (`ℚ`), the
  exact-arithmetic counterpart of the source's floats;
* the pandas mean of an empty series is `NaN`, the float marker for an
  undefined value; it is embedded as `Option.none`;
* the DuckDB SQL queries are embedded as filter / group-by / stable-sort /
  truncate operations over the row list (DuckDB's `ORDER BY` is a stable
  sort; `GROUP BY` groups are taken in first-seen row order);
* the floating-point power operator `**` in the required-growth formula is
  abstracted as an explicit function argument `powf`.
-/

/-- One row of the holdings table (the ten required columns of
src/streamliApp.py lines 27-28, in column order). -/
structure HoldingRecord where
  clientId : String
  clientName : String
  productName : String
  investmentAmount : ℚ
  marketValue : ℚ
  gainLoss : ℚ
  sector : String
  riskLevel : String
  annualizedExpectedGrowth : ℚ
  actualAnnualGrowth : ℚ
deriving DecidableEq, Repr

/-- The ten required column names (src/streamliApp.py lines 27-28). -/
def required_columns : List String :=
  ["Client ID", "Client Name", "Product Name", "Investment Amount", "Market Value",
   "Gain/Loss", "Sector", "Risk Level", "Annualized Expected Growth", "Actual Annual Growth"]

/-- The required columns absent from the loaded table's column list
(src/streamliApp.py line 29). -/
def missing_columns (cols : List String) : List String :=
  required_columns.filter (fun col => ¬ col ∈ cols)

/-- Filter the table to the selected client by exact string equality on the
"Client Name" column (src/streamliApp.py line 41). -/
def client_data (data : List HoldingRecord) (selected_client : String) : List HoldingRecord :=
  data.filter (fun r => r.clientName = selected_client)

/-- KPI: sum of "Investment Amount" over the client subset
(src/streamliApp.py line 63). -/
def total_investment (s : List HoldingRecord) : ℚ :=
  (s.map (fun r => r.investmentAmount)).sum

/-- KPI: sum of "Market Value" over the client subset
(src/streamliApp.py line 64). -/
def total_market_value (s : List HoldingRecord) : ℚ :=
  (s.map (fun r => r.marketValue)).sum

/-- KPI: net gain/loss (src/streamliApp.py line 65). -/
def net_gain_loss (s : List HoldingRecord) : ℚ :=
  total_market_value s - total_investment s

/-- pandas `Series.mean`: sum divided by count; on an empty series pandas
yields `NaN` (the float marker for an undefined value), embedded as `none`. -/
def series_mean (xs : List ℚ) : Option ℚ :=
  if xs.isEmpty then none else some (xs.sum / xs.length)

/-- KPI: mean of "Annualized Expected Growth" (src/streamliApp.py line 66). -/
def annual_growth_required (s : List HoldingRecord) : Option ℚ :=
  series_mean (s.map (fun r => r.annualizedExpectedGrowth))

/-- KPI: mean of "Actual Annual Growth" (src/streamliApp.py line 67). -/
def actual_annual_growth (s : List HoldingRecord) : Option ℚ :=
  series_mean (s.map (fun r => r.actualAnnualGrowth))

/-- Required annual growth to meet the target (src/streamliApp.py lines 86-88).
The if-guard is exactly the source's `target_increase > 0 and time_period > 0`;
when the guard fails the block is skipped and no value is produced (`none`).
The floating-point power operator `**` is abstracted as `powf`. -/
def expected_annual_growth (powf : ℚ → ℚ → ℚ)
    (target_increase total_investment_amt time_period : ℚ) : Option ℚ :=
  if 0 < target_increase ∧ 0 < time_period then
    some ((powf (target_increase / total_investment_amt) (1 / time_period) - 1) * 100)
  else none

/-- A sample power function used to instantiate `powf` at concrete inputs;
the guard behaviour of `expected_annual_growth` does not depend on it. -/
def powSample : ℚ → ℚ → ℚ := fun x _ => x

/-- Stable insertion step: `a` is placed before the first element `x` of the
(sorted) list with `leb a x`; later equal elements stay behind `a`. -/
def insOrd {α : Type} (leb : α → α → Bool) (a : α) : List α → List α
  | [] => [a]
  | x :: xs => if leb a x then a :: x :: xs else x :: insOrd leb a xs

/-- Stable insertion sort by the comparison `leb`; the embedding of SQL
`ORDER BY` (DuckDB's sort is stable: ties keep source row order). -/
def sortOrd {α : Type} (leb : α → α → Bool) : List α → List α
  | [] => []
  | x :: xs => insOrd leb x (sortOrd leb xs)

/-- The distinct values of a key column in first-seen row order; the
embedding of the grouping keys produced by SQL `GROUP BY`. -/
def firstSeen : List String → List String
  | [] => []
  | x :: xs => x :: firstSeen (xs.filter (fun y => y ≠ x))
termination_by l => l.length
decreasing_by
  simp only [List.length_cons]
  exact Nat.lt_succ_of_le (List.length_filter_le _ _)

/-- One output row of the at-risk SQL query (src/streamliApp.py lines 93-106):
the eight selected columns, with "Gain/Loss" the recomputed expression. -/
structure AtRiskRow where
  clientId : String
  clientName : String
  productName : String
  investmentAmount : ℚ
  marketValue : ℚ
  gainLoss : ℚ
  sector : String
  riskLevel : String
deriving DecidableEq, Repr

/-- The SELECT list of the at-risk query: copies the source columns and
recomputes "Gain/Loss" as "Market Value" - "Investment Amount"
(src/streamliApp.py line 100). -/
def toAtRiskRow (r : HoldingRecord) : AtRiskRow :=
  { clientId := r.clientId, clientName := r.clientName, productName := r.productName,
    investmentAmount := r.investmentAmount, marketValue := r.marketValue,
    gainLoss := r.marketValue - r.investmentAmount, sector := r.sector, riskLevel := r.riskLevel }

/-- `ORDER BY "Gain/Loss" ASC` comparison (src/streamliApp.py line 105). -/
def lebGainLoss (a b : AtRiskRow) : Bool := a.gainLoss ≤ b.gainLoss

/-- The at-risk query (src/streamliApp.py lines 93-107): rows of the client
subset with "Market Value" < "Investment Amount", gain/loss recomputed,
ordered by the recomputed "Gain/Loss" ascending. -/
def df_protip_data (s : List HoldingRecord) : List AtRiskRow :=
  sortOrd lebGainLoss ((s.filter (fun r => r.marketValue < r.investmentAmount)).map toAtRiskRow)

/-- One output row of the sector-summary query
(src/streamliApp.py lines 117-128). -/
structure SectorAggregate where
  sector : String
  totalInvested : ℚ
  totalMarketValue : ℚ
  netGainLoss : ℚ
deriving DecidableEq, Repr

/-- The aggregate row of one sector group: SUM("Investment Amount"),
SUM("Market Value"), SUM("Market Value" - "Investment Amount")
(src/streamliApp.py lines 121-123). -/
def sectorAgg (s : List HoldingRecord) (sec : String) : SectorAggregate :=
  { sector := sec,
    totalInvested := ((s.filter (fun r => r.sector = sec)).map (fun r => r.investmentAmount)).sum,
    totalMarketValue := ((s.filter (fun r => r.sector = sec)).map (fun r => r.marketValue)).sum,
    netGainLoss :=
      ((s.filter (fun r => r.sector = sec)).map (fun r => r.marketValue - r.investmentAmount)).sum }

/-- `ORDER BY "Net Gain/Loss" DESC` comparison (src/streamliApp.py line 126). -/
def gebNetGainLoss (a b : SectorAggregate) : Bool := b.netGainLoss ≤ a.netGainLoss

/-- The sector-summary query (src/streamliApp.py lines 117-128): group the
client subset by "Sector", aggregate, order by "Net Gain/Loss" descending. -/
def plot_sector_performance (s : List HoldingRecord) : List SectorAggregate :=
  sortOrd gebNetGainLoss ((firstSeen (s.map (fun r => r.sector))).map (sectorAgg s))

/-- One output row of the top-holdings query
(src/streamliApp.py lines 142-152). -/
structure HoldingAggregate where
  productName : String
  totalInvested : ℚ
deriving DecidableEq, Repr

/-- The aggregate row of one product group: SUM("Investment Amount")
(src/streamliApp.py line 146). -/
def productAgg (s : List HoldingRecord) (p : String) : HoldingAggregate :=
  { productName := p,
    totalInvested :=
      ((s.filter (fun r => r.productName = p)).map (fun r => r.investmentAmount)).sum }

/-- `ORDER BY "Total Invested" DESC` comparison (src/streamliApp.py line 149). -/
def gebInvested (a b : HoldingAggregate) : Bool := b.totalInvested ≤ a.totalInvested

/-- The top-holdings query (src/streamliApp.py lines 142-152): group the
client subset by "Product Name", sum invested amounts, order descending,
`LIMIT 5`. -/
def plot_top_holdings (s : List HoldingRecord) : List HoldingAggregate :=
  (sortOrd gebInvested ((firstSeen (s.map (fun r => r.productName))).map (productAgg s))).take 5

/-- Everything the dashboard computes for a selection once loading succeeded
(the else-branch of src/streamliApp.py lines 33-167, chart rendering and
widgets stripped). -/
structure DashboardOutput where
  clientRows : List HoldingRecord
  totalInvestment : ℚ
  totalMarketValue : ℚ
  netGainLoss : ℚ
  targetAnnualGrowth : Option ℚ
  actualGrowth : Option ℚ
  atRisk : List AtRiskRow
  sectorSummary : List SectorAggregate
  topHoldings : List HoldingAggregate
deriving Repr

/-- The aggregation pipeline of src/streamliApp.py lines 33-167 (chart
rendering and widgets stripped): every derived table and scalar the dashboard
computes for a selection. -/
def dashboard_output (data : List HoldingRecord) (selected_client : String) : DashboardOutput :=
  { clientRows := client_data data selected_client,
    totalInvestment := total_investment (client_data data selected_client),
    totalMarketValue := total_market_value (client_data data selected_client),
    netGainLoss := net_gain_loss (client_data data selected_client),
    targetAnnualGrowth := annual_growth_required (client_data data selected_client),
    actualGrowth := actual_annual_growth (client_data data selected_client),
    atRisk := df_protip_data (client_data data selected_client),
    sectorSummary := plot_sector_performance (client_data data selected_client),
    topHoldings := plot_top_holdings (client_data data selected_client) }

/-- The pipeline dispatch of src/streamliApp.py lines 29-33: if any required
column is missing, report exactly the missing names and stop — the error
branch computes no aggregate; otherwise run the aggregation pipeline. -/
def run_dashboard (cols : List String) (data : List HoldingRecord)
    (selected_client : String) : Except (List String) DashboardOutput :=
  if missing_columns cols ≠ [] then
    Except.error (missing_columns cols)
  else
    Except.ok (dashboard_output data selected_client)

/-- Inserting an element is a permutation of consing it. -/
theorem insOrd_perm {α : Type} (leb : α → α → Bool) (a : α) (l : List α) :
    List.Perm (insOrd leb a l) (a :: l) := by
  induction l with
  | nil => simp [insOrd]
  | cons x xs ih =>
    by_cases h : leb a x = true
    · simp [insOrd, h]
    · simp only [insOrd, h, if_false, Bool.false_eq_true]
      exact (ih.cons x).trans (List.Perm.swap a x xs)

/-- The stable sort is a permutation of its input. -/
theorem sortOrd_perm {α : Type} (leb : α → α → Bool) (l : List α) :
    List.Perm (sortOrd leb l) l := by
  induction l with
  | nil => simp [sortOrd]
  | cons x xs ih => exact (insOrd_perm leb x (sortOrd leb xs)).trans (ih.cons x)

/-- Inserting into a list sorted by a total transitive comparison keeps it
sorted. -/
theorem insOrd_pairwise {α : Type} (leb : α → α → Bool)
    (htot : ∀ a b, leb a b = true ∨ leb b a = true)
    (htrans : ∀ a b c, leb a b = true → leb b c = true → leb a c = true)
    (a : α) (l : List α) (hl : List.Pairwise (fun x y => leb x y = true) l) :
    List.Pairwise (fun x y => leb x y = true) (insOrd leb a l) := by
  induction l with
  | nil => simp [insOrd]
  | cons x xs ih =>
    rw [List.pairwise_cons] at hl
    obtain ⟨hx, hxs⟩ := hl
    by_cases h : leb a x = true
    · simp only [insOrd, h, if_true]
      rw [List.pairwise_cons]
      refine ⟨?_, ?_⟩
      · intro y hy
        rcases List.mem_cons.mp hy with hy | hy
        · exact hy ▸ h
        · exact htrans a x y h (hx y hy)
      · rw [List.pairwise_cons]
        exact ⟨hx, hxs⟩
    · have hxa : leb x a = true := (htot a x).resolve_left h
      simp only [insOrd, h, if_false, Bool.false_eq_true]
      rw [List.pairwise_cons]
      refine ⟨?_, ih hxs⟩
      intro y hy
      have hy2 : y = a ∨ y ∈ xs := by
        have := (insOrd_perm leb a xs).mem_iff.mp hy
        simpa using this
      rcases hy2 with rfl | hy2
      · exact hxa
      · exact hx y hy2

/-- The stable sort's output is sorted when the comparison is total and
transitive. -/
theorem sortOrd_pairwise {α : Type} (leb : α → α → Bool)
    (htot : ∀ a b, leb a b = true ∨ leb b a = true)
    (htrans : ∀ a b c, leb a b = true → leb b c = true → leb a c = true)
    (l : List α) : List.Pairwise (fun x y => leb x y = true) (sortOrd leb l) := by
  induction l with
  | nil => simp [sortOrd]
  | cons x xs ih => exact insOrd_pairwise leb htot htrans x (sortOrd leb xs) ih

/-- Stability of the insertion step, phrased through `filter`: the elements
the insertion walks past never satisfy `p` when the inserted element does. -/
theorem insOrd_filter {α : Type} (leb : α → α → Bool) (p : α → Bool) (a : α) (l : List α)
    (hstab : p a = true → ∀ x, leb a x = false → p x = false) :
    (insOrd leb a l).filter p = if p a then a :: l.filter p else l.filter p := by
  induction l with
  | nil =>
    by_cases hpa : p a = true <;> simp [insOrd, List.filter_cons, hpa]
  | cons x xs ih =>
    by_cases h : leb a x = true
    · simp only [insOrd, h, if_true]
      by_cases hpa : p a = true <;> simp [List.filter_cons, hpa]
    · have hfalse : leb a x = false := by simpa using h
      simp only [insOrd, h, if_false, Bool.false_eq_true]
      by_cases hpa : p a = true
      · have hpx : p x = false := hstab hpa x hfalse
        simp [List.filter_cons, hpx, hpa, ih]
      · by_cases hpx : p x = true <;> simp [List.filter_cons, hpx, hpa, ih]

/-- Stability of the stable sort, phrased through `filter`: restricted to any
tie class picked out by `p`, the sorted output keeps the input order. -/
theorem sortOrd_filter {α : Type} (leb : α → α → Bool) (p : α → Bool)
    (hstab : ∀ a x, p a = true → leb a x = false → p x = false) (l : List α) :
    (sortOrd leb l).filter p = l.filter p := by
  induction l with
  | nil => simp [sortOrd]
  | cons x xs ih =>
    have := insOrd_filter leb p x (sortOrd leb xs) (fun hpa y hy => hstab x y hpa hy)
    by_cases hpx : p x = true <;>
      simp [sortOrd, this, hpx, List.filter_cons, ih]

/-- `firstSeen` has the same members as the input column. -/
theorem mem_firstSeen : ∀ (l : List String) (a : String), a ∈ firstSeen l ↔ a ∈ l := by
  intro l
  induction l using firstSeen.induct with
  | case1 => simp [firstSeen]
  | case2 x xs ih =>
    intro a
    by_cases hax : a = x
    · simp [firstSeen, hax]
    · simp only [firstSeen, List.mem_cons, hax, false_or]
      rw [ih a]
      simp [List.mem_filter, hax]

/-- `firstSeen` lists each key once. -/
theorem nodup_firstSeen : ∀ (l : List String), (firstSeen l).Nodup := by
  intro l
  induction l using firstSeen.induct with
  | case1 => simp [firstSeen]
  | case2 x xs ih =>
    rw [firstSeen, List.nodup_cons]
    refine ⟨?_, ih⟩
    intro hx
    have := (mem_firstSeen _ x).mp hx
    simp [List.mem_filter] at this

/-- Splitting a sum over a list by one value of a key column. -/
theorem sum_map_filter_key_split {α : Type} (key : α → String) (k : String) (f : α → ℚ)
    (s : List α) :
    ((s.filter (fun a => key a = k)).map f).sum
      + ((s.filter (fun a => ¬ key a = k)).map f).sum = (s.map f).sum := by
  induction s with
  | nil => simp
  | cons x xs ih =>
    by_cases h : key x = k <;> simp [List.filter_cons, h, ← ih] <;> ring

/-- Filtering on one key value commutes past the removal of a different key
value. -/
theorem filter_key_of_ne {α : Type} (key : α → String) (j k : String) (hjk : j ≠ k)
    (s : List α) :
    (s.filter (fun r => ¬ key r = k)).filter (fun r => key r = j)
      = s.filter (fun r => key r = j) := by
  rw [List.filter_filter]
  apply List.filter_congr
  intro a _
  by_cases h : key a = j
  · have hk : ¬ key a = k := fun hh => hjk (h ▸ hh)
    simp [h, hk, hjk]
  · simp [h]

/-- Group-by is a partition: summing a column group-by-group over a duplicate-
free key list that covers every row gives the whole-column sum. -/
theorem sum_map_groups {α : Type} (key : α → String) (f : α → ℚ) :
    ∀ (ks : List String), ks.Nodup → ∀ (s : List α), (∀ r ∈ s, key r ∈ ks) →
      (ks.map (fun k => ((s.filter (fun r => key r = k)).map f).sum)).sum = (s.map f).sum := by
  intro ks
  induction ks with
  | nil =>
    intro _ s hcov
    cases s with
    | nil => simp
    | cons r rs => exact absurd (hcov r (by simp)) (by simp)
  | cons k ks ih =>
    intro hnd s hcov
    rw [List.nodup_cons] at hnd
    rw [List.map_cons, List.sum_cons]
    have hrw : (ks.map (fun j => ((s.filter (fun r => key r = j)).map f).sum))
        = (ks.map (fun j =>
            (((s.filter (fun r => ¬ key r = k)).filter (fun r => key r = j)).map f).sum)) := by
      apply List.map_congr_left
      intro j hj
      have hjk : j ≠ k := fun h => hnd.1 (h ▸ hj)
      rw [filter_key_of_ne key j k hjk s]
    rw [hrw, ih hnd.2 (s.filter (fun r => ¬ key r = k)) ?_]
    · exact sum_map_filter_key_split key k f s
    · intro r hr
      rw [List.mem_filter] at hr
      have h1 := hcov r hr.1
      have h2 : ¬ key r = k := by simpa using hr.2
      rcases List.mem_cons.mp h1 with h | h
      · exact absurd h h2
      · exact h

/-- Summing per-row differences equals the difference of the column sums. -/
theorem sum_map_sub {α : Type} (f g : α → ℚ) (l : List α) :
    (l.map (fun x => f x - g x)).sum = (l.map f).sum - (l.map g).sum := by
  induction l with
  | nil => simp
  | cons x xs ih => simp [ih]; ring

/-- The at-risk comparison is total. -/
theorem lebGainLoss_total (a b : AtRiskRow) : lebGainLoss a b = true ∨ lebGainLoss b a = true := by
  simp only [lebGainLoss, decide_eq_true_eq]
  exact le_total _ _

/-- The at-risk comparison is transitive. -/
theorem lebGainLoss_trans (a b c : AtRiskRow) :
    lebGainLoss a b = true → lebGainLoss b c = true → lebGainLoss a c = true := by
  simp only [lebGainLoss, decide_eq_true_eq]
  exact le_trans

/-- The sector comparison is total. -/
theorem gebNetGainLoss_total (a b : SectorAggregate) :
    gebNetGainLoss a b = true ∨ gebNetGainLoss b a = true := by
  simp only [gebNetGainLoss, decide_eq_true_eq]
  exact (le_total _ _).symm

/-- The sector comparison is transitive. -/
theorem gebNetGainLoss_trans (a b c : SectorAggregate) :
    gebNetGainLoss a b = true → gebNetGainLoss b c = true → gebNetGainLoss a c = true := by
  simp only [gebNetGainLoss, decide_eq_true_eq]
  exact fun h1 h2 => le_trans h2 h1

/-- The top-holdings comparison is total. -/
theorem gebInvested_total (a b : HoldingAggregate) :
    gebInvested a b = true ∨ gebInvested b a = true := by
  simp only [gebInvested, decide_eq_true_eq]
  exact (le_total _ _).symm

/-- The top-holdings comparison is transitive. -/
theorem gebInvested_trans (a b c : HoldingAggregate) :
    gebInvested a b = true → gebInvested b c = true → gebInvested a c = true := by
  simp only [gebInvested, decide_eq_true_eq]
  exact fun h1 h2 => le_trans h2 h1

/-- A sample holdings row; the source "Gain/Loss" column is set to the stale
value 999 to show that the queries recompute it rather than read it. -/
def mkRow (name product : String) (inv mv : ℚ) (sec : String) : HoldingRecord :=
  { clientId := "1", clientName := name, productName := product,
    investmentAmount := inv, marketValue := mv, gainLoss := 999,
    sector := sec, riskLevel := "Medium", annualizedExpectedGrowth := 5, actualAnnualGrowth := 4 }

/-- The KPI example subset of the spec: (inv=100, mv=120) and (inv=200, mv=180). -/
def sampleKpi : List HoldingRecord :=
  [mkRow "Alice" "P1" 100 120 "Tech", mkRow "Alice" "P2" 200 180 "Energy"]

/-- The at-risk example subset of the spec: (inv=100, mv=90), (inv=50, mv=60),
(inv=200, mv=150). -/
def sampleAtRisk : List HoldingRecord :=
  [mkRow "Alice" "P1" 100 90 "Tech", mkRow "Alice" "P2" 50 60 "Tech",
   mkRow "Alice" "P3" 200 150 "Energy"]

/-- The sector example subset of the spec: two Tech rows (inv=100, mv=150)
and (inv=50, mv=40). -/
def sampleSector : List HoldingRecord :=
  [mkRow "Alice" "P1" 100 150 "Tech", mkRow "Alice" "P2" 50 40 "Tech"]

/-- A sample table holding rows of two clients. -/
def sampleTable : List HoldingRecord :=
  [mkRow "Alice" "P1" 100 90 "Tech", mkRow "Bob" "P2" 50 60 "Tech",
   mkRow "Alice" "P3" 200 150 "Energy"]

/-- C2: for every loaded table containing all ten required column names the
load check passes and the pipeline runs; for every table missing one or more
required columns the pipeline stops with exactly the list of missing column
names, before computing any aggregate. -/
theorem c2_required_columns_check (cols : List String) (data : List HoldingRecord)
    (selected : String) :
    ((∀ c ∈ required_columns, c ∈ cols) →
        run_dashboard cols data selected = Except.ok (dashboard_output data selected)) ∧
    ((∃ c ∈ required_columns, ¬ c ∈ cols) →
        run_dashboard cols data selected = Except.error (missing_columns cols) ∧
        missing_columns cols ≠ [] ∧
        (∀ c, c ∈ missing_columns cols ↔ c ∈ required_columns ∧ ¬ c ∈ cols)) := by
  constructor
  · intro hall
    have hnil : missing_columns cols = [] := by
      rw [missing_columns, List.filter_eq_nil_iff]
      intro c hc
      simpa using hall c hc
    rw [run_dashboard, if_neg (by simp [hnil])]
  · rintro ⟨c, hc, hcn⟩
    have hmem : c ∈ missing_columns cols := by
      rw [missing_columns, List.mem_filter]
      exact ⟨hc, by simpa using hcn⟩
    have hne : missing_columns cols ≠ [] := List.ne_nil_of_mem hmem
    refine ⟨?_, hne, ?_⟩
    · rw [run_dashboard, if_pos hne]
    · intro d
      rw [missing_columns, List.mem_filter]
      simp

/-- The ten required columns with "Sector" removed. -/
def colsNoSector : List String :=
  ["Client ID", "Client Name", "Product Name", "Investment Amount", "Market Value",
   "Gain/Loss", "Risk Level", "Annualized Expected Growth", "Actual Annual Growth"]

/-- C2 witness: with all ten columns the pipeline runs; dropping "Sector"
stops it with exactly ["Sector"]. -/
theorem c2_witness :
    run_dashboard required_columns [] "Alice" = Except.ok (dashboard_output [] "Alice") ∧
    run_dashboard colsNoSector [] "Alice" = Except.error ["Sector"] := by
  constructor
  · exact (c2_required_columns_check required_columns [] "Alice").1 (fun c hc => hc)
  · have h := (c2_required_columns_check colsNoSector [] "Alice").2
      ⟨"Sector", by decide, by decide⟩
    have hs : missing_columns colsNoSector = ["Sector"] := by decide
    rw [hs] at h
    exact h.1

/-- A name matching no row selects the empty subset. -/
theorem client_data_eq_nil (data : List HoldingRecord) (name : String)
    (h : ∀ r ∈ data, ¬ r.clientName = name) : client_data data name = [] := by
  rw [client_data, List.filter_eq_nil_iff]
  intro r hr
  simpa using h r hr

/-- C3: the client filter returns exactly the rows whose "Client Name" equals
the selected name, as an order-preserving sublist of the table; when no row
matches it returns the empty subset. -/
theorem c3_selectClient (data : List HoldingRecord) (name : String) :
    List.Sublist (client_data data name) data ∧
    (∀ r ∈ client_data data name, r.clientName = name) ∧
    (∀ r ∈ data, r.clientName = name → r ∈ client_data data name) ∧
    ((∀ r ∈ data, ¬ r.clientName = name) → client_data data name = []) := by
  refine ⟨List.filter_sublist data, ?_, ?_, client_data_eq_nil data name⟩
  · intro r hr
    rw [client_data, List.mem_filter] at hr
    simpa using hr.2
  · intro r hr h
    rw [client_data, List.mem_filter]
    exact ⟨hr, by simpa using h⟩

/-- C3 witness: on the sample table, an absent name selects the empty subset
and "Alice" keeps her first row. -/
theorem c3_witness :
    client_data sampleTable "Nobody" = [] ∧
    mkRow "Alice" "P1" 100 90 "Tech" ∈ client_data sampleTable "Alice" := by
  constructor
  · refine (c3_selectClient sampleTable "Nobody").2.2.2 ?_
    intro r hr
    fin_cases hr <;> simp [mkRow]
  · exact (c3_selectClient sampleTable "Alice").2.2.1 _ (by simp [sampleTable]) rfl

/-- C4: the KPI set is the column sums, their difference, and the two column
means; on the spec's example subset (inv=100, mv=120), (inv=200, mv=180) the
totals are 300, 300 and the net gain/loss is 0. -/
theorem c4_computeKpis (s : List HoldingRecord) :
    total_investment s = (s.map (fun r => r.investmentAmount)).sum ∧
    total_market_value s = (s.map (fun r => r.marketValue)).sum ∧
    net_gain_loss s = total_market_value s - total_investment s ∧
    (s ≠ [] →
      annual_growth_required s
          = some ((s.map (fun r => r.annualizedExpectedGrowth)).sum / s.length) ∧
      actual_annual_growth s
          = some ((s.map (fun r => r.actualAnnualGrowth)).sum / s.length)) ∧
    total_investment sampleKpi = 300 ∧
    total_market_value sampleKpi = 300 ∧
    net_gain_loss sampleKpi = 0 := by
  refine ⟨rfl, rfl, rfl, ?_, ?_, ?_, ?_⟩
  · intro hne
    have h1 : (s.map (fun r => r.annualizedExpectedGrowth)).isEmpty = false := by
      simp [hne]
    have h2 : (s.map (fun r => r.actualAnnualGrowth)).isEmpty = false := by
      simp [hne]
    constructor <;>
      simp [annual_growth_required, actual_annual_growth, series_mean, h1, h2]
  · norm_num [total_investment, sampleKpi, mkRow]
  · norm_num [total_market_value, sampleKpi, mkRow]
  · norm_num [net_gain_loss, total_investment, total_market_value, sampleKpi, mkRow]

/-- C4 witness: the mean characterization applied to the example subset gives
the expected-growth mean 5. -/
theorem c4_witness : annual_growth_required sampleKpi = some 5 := by
  have h := (c4_computeKpis sampleKpi).2.2.2.1 (by simp [sampleKpi])
  rw [h.1]
  norm_num [sampleKpi, mkRow]

/-- C8: a selection matching zero rows degrades gracefully: the subset is
empty, both KPI sums and the net gain/loss are 0, and both KPI means are the
undefined sentinel (`none`, the embedding of pandas' NaN on an empty mean)
rather than an error. -/
theorem c8_empty_selection (data : List HoldingRecord) (name : String)
    (h : ∀ r ∈ data, ¬ r.clientName = name) :
    client_data data name = [] ∧
    total_investment (client_data data name) = 0 ∧
    total_market_value (client_data data name) = 0 ∧
    net_gain_loss (client_data data name) = 0 ∧
    annual_growth_required (client_data data name) = none ∧
    actual_annual_growth (client_data data name) = none := by
  have hnil : client_data data name = [] := client_data_eq_nil data name h
  rw [hnil]
  refine ⟨rfl, rfl, rfl, ?_, rfl, rfl⟩
  simp [net_gain_loss, total_investment, total_market_value]

/-- C8 witness: selecting an absent client on the sample table yields the
empty subset, zero sums and undefined means. -/
theorem c8_witness :
    client_data sampleTable "Nobody" = [] ∧
    total_investment (client_data sampleTable "Nobody") = 0 ∧
    total_market_value (client_data sampleTable "Nobody") = 0 ∧
    net_gain_loss (client_data sampleTable "Nobody") = 0 ∧
    annual_growth_required (client_data sampleTable "Nobody") = none ∧
    actual_annual_growth (client_data sampleTable "Nobody") = none := by
  refine c8_empty_selection sampleTable "Nobody" ?_
  intro r hr
  fin_cases hr <;> simp [mkRow]

/-- C1 counterexample: with targetIncrease = 100000, totalInvestment = 0 and
years = 3 the required-growth step is still computed (a value is produced),
because the source guard at line 86 checks only targetIncrease and years —
refuting the claim that the step is skipped whenever totalInvestment ≤ 0. -/
theorem c1_counterexample :
    (0 : ℚ) ≤ 0 ∧ (expected_annual_growth powSample 100000 0 3).isSome = true := by
  refine ⟨le_refl 0, ?_⟩
  rw [expected_annual_growth, if_pos (by norm_num)]
  rfl

/-- C1 (amended): the required-growth step is computed exactly when
targetIncrease > 0 and years > 0 — totalInvestment is not part of the guard —
and when computed it equals ((targetIncrease / totalInvestment) ** (1 / years)
− 1) * 100, for any power operator powf. -/
theorem c1_required_growth_guard (powf : ℚ → ℚ → ℚ)
    (target_increase total_inv time_period : ℚ) :
    (expected_annual_growth powf target_increase total_inv time_period = none ↔
        ¬ (0 < target_increase ∧ 0 < time_period)) ∧
    (0 < target_increase → 0 < time_period →
        expected_annual_growth powf target_increase total_inv time_period
          = some ((powf (target_increase / total_inv) (1 / time_period) - 1) * 100)) := by
  constructor
  · rw [expected_annual_growth]
    by_cases h : 0 < target_increase ∧ 0 < time_period
    · simp [h]
    · simp [h]
  · intro h1 h2
    rw [expected_annual_growth, if_pos ⟨h1, h2⟩]

/-- C1 witness: at targetIncrease 100000, totalInvestment 500000, years 3 the
guard holds and the formula value is produced. -/
theorem c1_witness :
    expected_annual_growth powSample 100000 500000 3
      = some ((powSample (100000 / 500000) (1 / 3) - 1) * 100) :=
  (c1_required_growth_guard powSample 100000 500000 3).2 (by norm_num) (by norm_num)

/-- C5: the at-risk query returns exactly the rows with marketValue <
investmentAmount, gain/loss recomputed as marketValue − investmentAmount
(never read from the source column), sorted ascending by the recomputed
gain/loss with ties kept in original row order; on the spec's example subset
it returns the first and third rows with gain/loss −50 before −10. -/
theorem c5_computeAtRisk (s : List HoldingRecord) :
    List.Perm (df_protip_data s)
      ((s.filter (fun r => r.marketValue < r.investmentAmount)).map toAtRiskRow) ∧
    List.Pairwise (fun a b => a.gainLoss ≤ b.gainLoss) (df_protip_data s) ∧
    (∀ c : ℚ, (df_protip_data s).filter (fun a => a.gainLoss = c)
        = ((s.filter (fun r => r.marketValue < r.investmentAmount)).map toAtRiskRow).filter
            (fun a => a.gainLoss = c)) ∧
    (∀ a ∈ df_protip_data s, a.gainLoss = a.marketValue - a.investmentAmount) ∧
    df_protip_data sampleAtRisk
      = [toAtRiskRow (mkRow "Alice" "P3" 200 150 "Energy"),
         toAtRiskRow (mkRow "Alice" "P1" 100 90 "Tech")] := by
  refine ⟨sortOrd_perm _ _, ?_, ?_, ?_, ?_⟩
  · have h := sortOrd_pairwise lebGainLoss lebGainLoss_total lebGainLoss_trans
      ((s.filter (fun r => r.marketValue < r.investmentAmount)).map toAtRiskRow)
    rw [df_protip_data]
    exact h.imp (fun hab => by simpa [lebGainLoss] using hab)
  · intro c
    rw [df_protip_data]
    apply sortOrd_filter
    intro a x hpa hax
    rw [decide_eq_true_eq] at hpa
    rw [lebGainLoss, decide_eq_false_iff_not] at hax
    rw [decide_eq_false_iff_not]
    intro hx
    exact hax (le_of_eq (hpa.trans hx.symm))
  · intro a ha
    have hmem := (sortOrd_perm lebGainLoss _).mem_iff.mp ha
    rw [List.mem_map] at hmem
    obtain ⟨r, hr, rfl⟩ := hmem
    rfl
  · norm_num [df_protip_data, sampleAtRisk, sortOrd, insOrd, lebGainLoss, toAtRiskRow, mkRow,
      List.filter_cons]

/-- C5 witness: the recomputed-gain/loss invariant applied to a member of the
at-risk output on the example subset. -/
theorem c5_witness :
    (toAtRiskRow (mkRow "Alice" "P1" 100 90 "Tech")).gainLoss
      = (toAtRiskRow (mkRow "Alice" "P1" 100 90 "Tech")).marketValue
        - (toAtRiskRow (mkRow "Alice" "P1" 100 90 "Tech")).investmentAmount := by
  refine (c5_computeAtRisk sampleAtRisk).2.2.2.1 _ ?_
  rw [(c5_computeAtRisk sampleAtRisk).2.2.2.2]
  exact List.mem_cons_of_mem _ (List.mem_cons_self _ _)

/-- The sector aggregate of the spec's Tech example. -/
def techAggregate : SectorAggregate :=
  { sector := "Tech", totalInvested := 150, totalMarketValue := 190, netGainLoss := 40 }

/-- C6: the sector summary has one aggregate per sector (first-seen group
order before sorting), each carrying the group sums and netGainLoss =
totalMarketValue − totalInvested, sorted descending by netGainLoss with ties
kept in first-seen-group order; the two Tech example rows collapse to the
single aggregate (150, 190, 40). -/
theorem c6_sectorSummary (s : List HoldingRecord) :
    List.Perm (plot_sector_performance s)
      ((firstSeen (s.map (fun r => r.sector))).map (sectorAgg s)) ∧
    List.Pairwise (fun a b => b.netGainLoss ≤ a.netGainLoss) (plot_sector_performance s) ∧
    (∀ c : ℚ, (plot_sector_performance s).filter (fun a => a.netGainLoss = c)
        = ((firstSeen (s.map (fun r => r.sector))).map (sectorAgg s)).filter
            (fun a => a.netGainLoss = c)) ∧
    (∀ a ∈ plot_sector_performance s,
        a.totalInvested
            = ((s.filter (fun r => r.sector = a.sector)).map (fun r => r.investmentAmount)).sum
          ∧ a.totalMarketValue
            = ((s.filter (fun r => r.sector = a.sector)).map (fun r => r.marketValue)).sum
          ∧ a.netGainLoss = a.totalMarketValue - a.totalInvested) ∧
    plot_sector_performance sampleSector = [techAggregate] := by
  refine ⟨sortOrd_perm _ _, ?_, ?_, ?_, ?_⟩
  · have h := sortOrd_pairwise gebNetGainLoss gebNetGainLoss_total gebNetGainLoss_trans
      ((firstSeen (s.map (fun r => r.sector))).map (sectorAgg s))
    rw [plot_sector_performance]
    exact h.imp (fun hab => by simpa [gebNetGainLoss] using hab)
  · intro c
    rw [plot_sector_performance]
    apply sortOrd_filter
    intro a x hpa hax
    rw [decide_eq_true_eq] at hpa
    rw [gebNetGainLoss, decide_eq_false_iff_not] at hax
    rw [decide_eq_false_iff_not]
    intro hx
    exact hax (le_of_eq (hx.trans hpa.symm))
  · intro a ha
    have hmem := (sortOrd_perm gebNetGainLoss _).mem_iff.mp ha
    rw [List.mem_map] at hmem
    obtain ⟨sec, hsec, rfl⟩ := hmem
    exact ⟨rfl, rfl, sum_map_sub _ _ _⟩
  · norm_num [plot_sector_performance, firstSeen, sectorAgg, sampleSector, mkRow, sortOrd,
      insOrd, gebNetGainLoss, techAggregate, List.filter_cons]

/-- C6 witness: the membership invariant applied to the Tech aggregate of the
example subset. -/
theorem c6_witness :
    techAggregate.netGainLoss = techAggregate.totalMarketValue - techAggregate.totalInvested := by
  refine ((c6_sectorSummary sampleSector).2.2.2.1 techAggregate ?_).2.2
  rw [(c6_sectorSummary sampleSector).2.2.2.2]
  exact List.mem_cons_self _ _

/-- C7: the top-holdings query groups by product, sums invested amounts,
sorts descending and truncates to at most 5 entries; when there are at most 5
distinct products it returns an aggregate for every product (no padding). -/
theorem c7_topHoldings (s : List HoldingRecord) :
    (plot_top_holdings s).length ≤ 5 ∧
    List.Pairwise (fun a b => b.totalInvested ≤ a.totalInvested) (plot_top_holdings s) ∧
    (∀ a ∈ plot_top_holdings s,
        a.totalInvested = ((s.filter (fun r => r.productName = a.productName)).map
            (fun r => r.investmentAmount)).sum) ∧
    ((firstSeen (s.map (fun r => r.productName))).length ≤ 5 →
        List.Perm (plot_top_holdings s)
          ((firstSeen (s.map (fun r => r.productName))).map (productAgg s))) := by
  refine ⟨?_, ?_, ?_, ?_⟩
  · rw [plot_top_holdings]
    exact List.length_take_le 5 _
  · have h := sortOrd_pairwise gebInvested gebInvested_total gebInvested_trans
      ((firstSeen (s.map (fun r => r.productName))).map (productAgg s))
    rw [plot_top_holdings]
    exact List.Pairwise.sublist (List.take_sublist _ _)
      (h.imp (fun hab => by simpa [gebInvested] using hab))
  · intro a ha
    rw [plot_top_holdings] at ha
    have ha2 := List.take_subset _ _ ha
    have hmem := (sortOrd_perm gebInvested _).mem_iff.mp ha2
    rw [List.mem_map] at hmem
    obtain ⟨p, hp, rfl⟩ := hmem
    rfl
  · intro hlen
    rw [plot_top_holdings]
    have hlen2 : (sortOrd gebInvested
        ((firstSeen (s.map (fun r => r.productName))).map (productAgg s))).length ≤ 5 := by
      rw [(sortOrd_perm _ _).length_eq, List.length_map]
      exact hlen
    rw [List.take_of_length_le hlen2]
    exact sortOrd_perm _ _

/-- C7 witness: the example subset has 3 distinct products and the query
returns all 3 (no padding to 5). -/
theorem c7_witness : (plot_top_holdings sampleAtRisk).length = 3 := by
  have hlen : (firstSeen (sampleAtRisk.map (fun r => r.productName))).length ≤ 5 := by
    simp [sampleAtRisk, mkRow, firstSeen, List.filter_cons]
  have h := (c7_topHoldings sampleAtRisk).2.2.2 hlen
  rw [h.length_eq, List.length_map]
  simp [sampleAtRisk, mkRow, firstSeen, List.filter_cons]

/-- C9: the sector summary partitions the KPI totals: the sector sums of
invested amount, market value and net gain/loss add up to totalInvestment,
totalMarketValue and netGainLoss respectively. -/
theorem c9_sector_partition (s : List HoldingRecord) :
    ((plot_sector_performance s).map (fun a => a.totalInvested)).sum = total_investment s ∧
    ((plot_sector_performance s).map (fun a => a.totalMarketValue)).sum = total_market_value s ∧
    ((plot_sector_performance s).map (fun a => a.netGainLoss)).sum = net_gain_loss s := by
  have hnd := nodup_firstSeen (s.map (fun r => r.sector))
  have hcov : ∀ r ∈ s, r.sector ∈ firstSeen (s.map (fun r => r.sector)) := by
    intro r hr
    exact (mem_firstSeen _ _).mpr (List.mem_map_of_mem _ hr)
  have hperm := sortOrd_perm gebNetGainLoss
    ((firstSeen (s.map (fun r => r.sector))).map (sectorAgg s))
  refine ⟨?_, ?_, ?_⟩
  · rw [plot_sector_performance, List.Perm.sum_eq (hperm.map (fun a => a.totalInvested)),
      List.map_map, total_investment,
      ← sum_map_groups (fun r => r.sector) (fun r => r.investmentAmount) _ hnd s hcov]
    rfl
  · rw [plot_sector_performance, List.Perm.sum_eq (hperm.map (fun a => a.totalMarketValue)),
      List.map_map, total_market_value,
      ← sum_map_groups (fun r => r.sector) (fun r => r.marketValue) _ hnd s hcov]
    rfl
  · rw [plot_sector_performance, List.Perm.sum_eq (hperm.map (fun a => a.netGainLoss)),
      List.map_map, net_gain_loss, total_market_value, total_investment, ← sum_map_sub,
      ← sum_map_groups (fun r => r.sector)
        (fun r => r.marketValue - r.investmentAmount) _ hnd s hcov]
    rfl

/-- C10: every row of the at-risk output for a selected client carries that
client's name, has market value strictly below investment amount, and reports
a strictly negative gain/loss equal to marketValue − investmentAmount. -/
theorem c10_atRisk_invariants (data : List HoldingRecord) (name : String) :
    ∀ row ∈ df_protip_data (client_data data name),
      row.clientName = name ∧
      row.marketValue < row.investmentAmount ∧
      row.gainLoss = row.marketValue - row.investmentAmount ∧
      row.gainLoss < 0 := by
  intro row hrow
  have hmem := (sortOrd_perm lebGainLoss _).mem_iff.mp hrow
  rw [List.mem_map] at hmem
  obtain ⟨r, hr, rfl⟩ := hmem
  rw [List.mem_filter] at hr
  obtain ⟨hr1, hr2⟩ := hr
  rw [client_data, List.mem_filter] at hr1
  have hname : r.clientName = name := by simpa using hr1.2
  have hlt : r.marketValue < r.investmentAmount := by simpa using hr2
  refine ⟨hname, hlt, rfl, ?_⟩
  simp only [toAtRiskRow]
  linarith

/-- C10 witness: the invariants applied to an at-risk row of the sample
table's "Alice" selection. -/
theorem c10_witness :
    (toAtRiskRow (mkRow "Alice" "P1" 100 90 "Tech")).clientName = "Alice" ∧
    (toAtRiskRow (mkRow "Alice" "P1" 100 90 "Tech")).gainLoss < 0 := by
  have hEq : df_protip_data (client_data sampleTable "Alice")
      = [toAtRiskRow (mkRow "Alice" "P3" 200 150 "Energy"),
         toAtRiskRow (mkRow "Alice" "P1" 100 90 "Tech")] := by
    norm_num [df_protip_data, client_data, sampleTable, sortOrd, insOrd, lebGainLoss,
      toAtRiskRow, mkRow, List.filter_cons]
  have hmem : toAtRiskRow (mkRow "Alice" "P1" 100 90 "Tech")
      ∈ df_protip_data (client_data sampleTable "Alice") := by
    rw [hEq]
    exact List.mem_cons_of_mem _ (List.mem_cons_self _ _)
  have h := c10_atRisk_invariants sampleTable "Alice" _ hmem
  exact ⟨h.1, h.2.2.2⟩
